import Mathlib

/-
Verification of the recursive geometry core of `fractal_tree.py`
(repository partum55/fractal_tree).

The program's computational core is the method `FractalTree.draw_tree`,
which recursively emits line segments of a binary fractal tree onto a
Matplotlib axis.  We embed it shallowly:

* Coordinates, lengths, angles, widths and (scalar) colour values live in
  `ℚ`.  The source computes with floating-point numbers; the claims under
  verification are about exact arithmetic identities, traversal structure
  and counts, so we use exact rationals.
* The trigonometric primitives `np.cos`, `np.sin`, the degree-to-radian
  conversion `np.deg2rad`, the constant `np.pi / 2` and the colormap lookup
  `plt.get_cmap` are left uninterpreted: they are fields of an `Env`
  record over which every theorem quantifies.
* The side effect `ax.plot([x, x2], [y, y2], color=color, linewidth=linewidth)`
  is modelled by emitting a `Segment` value; the function returns the list
  of segments in the order the plot calls happen.
* Python recursion on a possibly negative `int` depth, with Python's
  recursion limit and its `ZeroDivisionError` on `current_depth / self.depth`,
  is modelled separately by a fuelled variant returning `Except PyErr`.
-/

/-- The numerical environment of the source module: `np.cos`, `np.sin`,
`np.deg2rad`, the constant `np.pi / 2`, and `plt.get_cmap` (mapping a
colormap name and a normalised depth fraction to a scalar colour value).
All are left uninterpreted. -/
structure Env where
  cos : ℚ → ℚ
  sin : ℚ → ℚ
  d2r : ℚ → ℚ
  halfPi : ℚ
  getCmap : String → ℚ → ℚ

/-- One `ax.plot` call of `draw_tree`: the drawn segment `(x,y) → (x2,y2)`
with its colour and line width, together with the parameters
(`current_depth`, `current_angle`, `length`) of the `draw_tree` invocation
that emitted it.  The last three fields are instrumentation (the plot call
itself only receives the first six); they record the emitting call so that
per-depth and per-length claims can be stated about the output. -/
structure Segment where
  x : ℚ
  y : ℚ
  x2 : ℚ
  y2 : ℚ
  color : ℚ
  linewidth : ℚ
  depth : ℕ
  heading : ℚ
  len : ℚ
deriving DecidableEq

/-- The state set up by `FractalTree.__init__`: exactly the four attributes
the constructor assigns (`self.depth`, `self.angle`, `self.factor`,
`self.cmap_tree`).  The constructor's `seed` parameter is not assigned to
any attribute.  `depth` is a natural number here; calls of `draw_tree`
with negative depth arguments are handled by the fuelled model below. -/
structure FractalTree where
  depth : ℕ
  angle : ℚ
  factor : ℚ
  cmap_tree : String

/-- `FractalTree.__init__(self, depth=8, angle=30, factor=0.7, seed=0,
cmap_tree='Greens')`: stores `depth`, `np.deg2rad(angle)`, `factor` and
`cmap_tree`; the `seed` argument is accepted and discarded. -/
def FractalTree.init (E : Env) (depth : ℕ) (angle : ℚ) (factor : ℚ)
    (seed : ℤ) (cmap_tree : String) : FractalTree :=
  ⟨depth, E.d2r angle, factor, cmap_tree⟩

/-- The recursive body of `FractalTree.draw_tree` once the defaulted
`current_angle` and `current_depth` are fixed.  The local variables of the
source are inlined: `t = current_depth / self.depth`,
`color = plt.get_cmap(self.cmap_tree)(t)`,
`linewidth = 0.5 + current_depth * 0.3`,
`x2 = x + length * cos(current_angle)`,
`y2 = y + length * sin(current_angle)`,
`new_length = length * self.factor`; then one segment is plotted and the
two recursive calls happen at `current_angle + self.angle` and
`current_angle - self.angle` with depth `current_depth - 1`. -/
def drawTreeRec (E : Env) (self : FractalTree) :
    ℚ → ℚ → ℚ → ℚ → ℕ → List Segment
  | _, _, _, _, 0 => []
  | x, y, length, a, d + 1 =>
    ⟨x, y, x + length * E.cos a, y + length * E.sin a,
      E.getCmap self.cmap_tree (((d + 1 : ℕ) : ℚ) / (self.depth : ℚ)),
      1 / 2 + ((d + 1 : ℕ) : ℚ) * (3 / 10), d + 1, a, length⟩ ::
    (drawTreeRec E self (x + length * E.cos a) (y + length * E.sin a)
        (length * self.factor) (a + self.angle) d ++
      drawTreeRec E self (x + length * E.cos a) (y + length * E.sin a)
        (length * self.factor) (a - self.angle) d)

/-- `FractalTree.draw_tree(self, ax, x=0, y=0, length=1, angle=None,
depth=None)`: `current_depth = depth if depth is not None else self.depth`,
`current_angle = angle if angle is not None else np.pi / 2`, then the
recursive body.  Returns the segments plotted, in plot order. -/
def FractalTree.draw_tree (self : FractalTree) (E : Env) (x y length : ℚ)
    (angle : Option ℚ) (depth : Option ℕ) : List Segment :=
  drawTreeRec E self x y length (angle.getD E.halfPi) (depth.getD self.depth)

/-- Exceptions the Python method can raise: exceeding the interpreter's
recursion limit, and integer division by zero in
`t = current_depth / self.depth`. -/
inductive PyErr where
  | recursionError : PyErr
  | zeroDivisionError : PyErr
deriving DecidableEq

/-- Fuelled model of `draw_tree` faithful to Python on arbitrary integer
`current_depth`: the guard is exactly `current_depth == 0`, so a negative
depth recurses past it; `fuel` is the remaining allowance of nested calls
(Python's recursion limit), exhausting it raises `RecursionError`; if the
guard falls through while `self.depth = 0`, the division
`current_depth / self.depth` raises `ZeroDivisionError`.  The `depth`
instrumentation field stores `currentDepth.toNat` (it is only reachable
with a positive depth). -/
def drawTreeFuel (E : Env) (self : FractalTree) :
    ℕ → ℚ → ℚ → ℚ → ℚ → ℤ → Except PyErr (List Segment)
  | 0, _, _, _, _, _ => .error .recursionError
  | fuel + 1, x, y, length, a, currentDepth =>
    if currentDepth = 0 then .ok []
    else if self.depth = 0 then .error .zeroDivisionError
    else
      match drawTreeFuel E self fuel (x + length * E.cos a)
          (y + length * E.sin a) (length * self.factor) (a + self.angle)
          (currentDepth - 1) with
      | .error e => .error e
      | .ok l =>
        match drawTreeFuel E self fuel (x + length * E.cos a)
            (y + length * E.sin a) (length * self.factor) (a - self.angle)
            (currentDepth - 1) with
        | .error e => .error e
        | .ok r =>
          .ok (⟨x, y, x + length * E.cos a, y + length * E.sin a,
            E.getCmap self.cmap_tree ((currentDepth : ℚ) / (self.depth : ℚ)),
            1 / 2 + (currentDepth : ℚ) * (3 / 10),
            currentDepth.toNat, a, length⟩ :: (l ++ r))

/-- `draw_tree` with the fuelled body: defaults `angle` to `np.pi / 2` and
`depth` to `self.depth`, as the source does. -/
def FractalTree.draw_tree_fuel (self : FractalTree) (E : Env) (fuel : ℕ)
    (x y length : ℚ) (angle : Option ℚ) (depth : Option ℤ) :
    Except PyErr (List Segment) :=
  drawTreeFuel E self fuel x y length (angle.getD E.halfPi)
    (depth.getD (self.depth : ℤ))

/-- The branching structure of one `draw_tree` call, kept as a binary
tree: the node's segment, then the subtree recursed with
`current_angle + self.angle`, then the subtree recursed with
`current_angle - self.angle`. -/
inductive STree where
  | leaf : STree
  | node : Segment → STree → STree → STree

/-- Modelled from the spec's words: the traversal order "current branch
drawn, then entire left sub-branch recursively, then entire right
sub-branch recursively" (pre-order, left-first). -/
def preorder : STree → List Segment
  | .leaf => []
  | .node s l r => s :: (preorder l ++ preorder r)

/-- The call tree of `draw_tree`: same computation as `drawTreeRec`, but
keeping the two recursive calls as children (`+ self.angle` child first)
instead of concatenating their output. -/
def buildTree (E : Env) (self : FractalTree) :
    ℚ → ℚ → ℚ → ℚ → ℕ → STree
  | _, _, _, _, 0 => .leaf
  | x, y, length, a, d + 1 =>
    .node
      ⟨x, y, x + length * E.cos a, y + length * E.sin a,
        E.getCmap self.cmap_tree (((d + 1 : ℕ) : ℚ) / (self.depth : ℚ)),
        1 / 2 + ((d + 1 : ℕ) : ℚ) * (3 / 10), d + 1, a, length⟩
      (buildTree E self (x + length * E.cos a) (y + length * E.sin a)
        (length * self.factor) (a + self.angle) d)
      (buildTree E self (x + length * E.cos a) (y + length * E.sin a)
        (length * self.factor) (a - self.angle) d)

/-- The root segment of a call tree (if any) starts at the given point. -/
def rootAt : STree → ℚ → ℚ → Prop
  | .leaf, _, _ => True
  | .node s _ _, px, py => s.x = px ∧ s.y = py

/-- Endpoint continuity of a call tree: each child subtree's root segment
starts at the end point `(x2, y2)` of its parent's segment, recursively. -/
def chained : STree → Prop
  | .leaf => True
  | .node s l r => rootAt l s.x2 s.y2 ∧ rootAt r s.x2 s.y2 ∧ chained l ∧ chained r

/-- State-passing translation of the method `draw_tree`: the object state
`self` is threaded through the call exactly as Python's mutable `self`
would be (the second recursive call starts from the state left by the
first, and reads `self.angle` from it).  The method body contains no
assignment to `self`, which the definition reflects: no constructor of
`FractalTree` appears in it. -/
def drawTreeState (E : Env) :
    FractalTree → ℚ → ℚ → ℚ → ℚ → ℕ → List Segment × FractalTree
  | self, _, _, _, _, 0 => ([], self)
  | self, x, y, length, a, d + 1 =>
    match drawTreeState E self (x + length * E.cos a) (y + length * E.sin a)
        (length * self.factor) (a + self.angle) d with
    | (segsL, self1) =>
      match drawTreeState E self1 (x + length * E.cos a) (y + length * E.sin a)
          (length * self.factor) (a - self1.angle) d with
      | (segsR, self2) =>
        (⟨x, y, x + length * E.cos a, y + length * E.sin a,
          E.getCmap self.cmap_tree (((d + 1 : ℕ) : ℚ) / (self.depth : ℚ)),
          1 / 2 + ((d + 1 : ℕ) : ℚ) * (3 / 10), d + 1, a, length⟩ ::
          (segsL ++ segsR), self2)

-- A concrete environment and trees used by the evaluation witnesses:
-- constant trigonometric values, identity degree conversion, identity
-- colormaps.

/-- Concrete environment: `cos` constantly `0`, `sin` constantly `1`,
degrees kept as-is (`d2r = id`, `halfPi = 90`), colormap value `t`. -/
def env0 : Env := ⟨fun _ => 0, fun _ => 1, fun a => a, 90, fun _ t => t⟩

/-- Concrete environment with both trigonometric functions constantly
zero, used where only lengths and depths matter. -/
def env1 : Env := ⟨fun _ => 0, fun _ => 0, fun a => a, 90, fun _ t => t⟩

/-- The tree of the depth-1 evaluation witnesses. -/
def tree1 : FractalTree := ⟨1, 30, 7 / 10, "Greens"⟩

/-- The single segment drawn by `tree1` under `env0` from the default pose. -/
def seg1 : Segment := ⟨0, 0, 0, 1, 1, 4 / 5, 1, 90, 1⟩

/-- A depth-5 tree with shrink factor `0.7` and branch angle `0`. -/
def tree5 : FractalTree := ⟨5, 0, 7 / 10, "Greens"⟩

/-- A leaf-level (`current_depth = 1`) segment of `tree5` under `env1`. -/
def leafSeg : Segment := ⟨0, 0, 0, 0, 1 / 5, 4 / 5, 1, 90, 2401 / 10000⟩

/-- The default tree of the source's CLI (`depth=8, angle=30, factor=0.7,
seed=0, cmap_tree='Greens'`), constructed through `FractalTree.init`. -/
def tree8 : FractalTree := FractalTree.init env1 8 30 (7 / 10) 0 "Greens"

/-- Divergence of `draw_tree` at depth `-1` on the default tree: whatever
recursion allowance the interpreter grants, the call exhausts it
(Python raises `RecursionError`) instead of returning a value. -/
def negDepthDiverges : Prop :=
  ∀ fuel : ℕ,
    tree8.draw_tree_fuel env1 fuel 0 0 1 none (some (-1)) =
      .error .recursionError

/-- Recognizer for the `ZeroDivisionError` outcome of the fuelled model. -/
def isZeroDiv : Except PyErr (List Segment) → Bool
  | .error .zeroDivisionError => true
  | _ => false

theorem drawTreeRec_length (E : Env) (self : FractalTree) :
    ∀ (d : ℕ) (x y length a : ℚ),
    (drawTreeRec E self x y length a d).length = 2 ^ d - 1 := by
  intro d
  induction d with
  | zero => intro x y length a; rfl
  | succ d ih =>
    intro x y length a
    have h2 : 0 < 2 ^ d := pow_pos (by norm_num) d
    simp [drawTreeRec, ih, pow_succ]
    omega

theorem drawTreeRec_eq_preorder (E : Env) (self : FractalTree) :
    ∀ (d : ℕ) (x y length a : ℚ),
    drawTreeRec E self x y length a d =
      preorder (buildTree E self x y length a d) := by
  intro d
  induction d with
  | zero => intro x y length a; rfl
  | succ d ih => intro x y length a; simp [drawTreeRec, buildTree, preorder, ih]

theorem buildTree_rootAt (E : Env) (self : FractalTree)
    (d : ℕ) (x y length a : ℚ) :
    rootAt (buildTree E self x y length a d) x y := by
  cases d with
  | zero => trivial
  | succ d => exact ⟨rfl, rfl⟩

theorem buildTree_chained (E : Env) (self : FractalTree) :
    ∀ (d : ℕ) (x y length a : ℚ),
    chained (buildTree E self x y length a d) := by
  intro d
  induction d with
  | zero => intro x y length a; trivial
  | succ d ih =>
    intro x y length a
    exact ⟨buildTree_rootAt E self d _ _ _ _, buildTree_rootAt E self d _ _ _ _,
      ih _ _ _ _, ih _ _ _ _⟩

theorem mem_drawTreeRec_props (E : Env) (self : FractalTree) :
    ∀ (d : ℕ) (x y length a : ℚ) (s : Segment),
    s ∈ drawTreeRec E self x y length a d →
    s.linewidth = 1 / 2 + (s.depth : ℚ) * (3 / 10) ∧
    s.color = E.getCmap self.cmap_tree ((s.depth : ℚ) / (self.depth : ℚ)) ∧
    s.len = length * self.factor ^ (d - s.depth) ∧
    1 ≤ s.depth ∧ s.depth ≤ d := by
  intro d
  induction d with
  | zero => intro x y length a s hs; simp [drawTreeRec] at hs
  | succ d ih =>
    intro x y length a s hs
    rw [drawTreeRec] at hs
    rcases List.mem_cons.1 hs with h | h
    · subst h
      refine ⟨rfl, rfl, by simp, by simp, le_refl _⟩
    · have key : ∀ (a2 : ℚ),
          s ∈ drawTreeRec E self (x + length * E.cos a) (y + length * E.sin a)
            (length * self.factor) a2 d →
          s.linewidth = 1 / 2 + (s.depth : ℚ) * (3 / 10) ∧
          s.color = E.getCmap self.cmap_tree ((s.depth : ℚ) / (self.depth : ℚ)) ∧
          s.len = length * self.factor ^ (d + 1 - s.depth) ∧
          1 ≤ s.depth ∧ s.depth ≤ d + 1 := by
        intro a2 hmem
        obtain ⟨hl, hc, hlen, hs1, hs2⟩ := ih _ _ _ a2 s hmem
        refine ⟨hl, hc, ?_, hs1, Nat.le_succ_of_le hs2⟩
        rw [hlen]
        have hsub : d + 1 - s.depth = (d - s.depth) + 1 := by omega
        rw [hsub, pow_succ]
        ring
      rcases List.mem_append.1 h with h | h
      · exact key _ h
      · exact key _ h

theorem drawTreeState_eq (E : Env) :
    ∀ (d : ℕ) (self : FractalTree) (x y length a : ℚ),
    drawTreeState E self x y length a d =
      (drawTreeRec E self x y length a d, self) := by
  intro d
  induction d with
  | zero => intro self x y length a; rfl
  | succ d ih =>
    intro self x y length a
    simp [drawTreeState, ih, drawTreeRec]

theorem drawTreeFuel_neg (E : Env) (self : FractalTree) (hd : self.depth ≠ 0) :
    ∀ (fuel : ℕ) (x y length a : ℚ) (cd : ℤ), cd < 0 →
    drawTreeFuel E self fuel x y length a cd = .error .recursionError := by
  intro fuel
  induction fuel with
  | zero => intro x y length a cd hcd; rfl
  | succ fuel ih =>
    intro x y length a cd hcd
    rw [drawTreeFuel, if_neg (by omega), if_neg hd,
      ih _ _ _ _ _ (by omega : cd - 1 < 0)]

theorem drawTreeFuel_agree (E : Env) (self : FractalTree) :
    ∀ (d fuel : ℕ) (x y length a : ℚ),
    d < fuel → (self.depth ≠ 0 ∨ d = 0) →
    drawTreeFuel E self fuel x y length a (d : ℤ) =
      .ok (drawTreeRec E self x y length a d) := by
  intro d
  induction d with
  | zero =>
    intro fuel x y length a hf _
    cases fuel with
    | zero => omega
    | succ fuel => simp [drawTreeFuel, drawTreeRec]
  | succ d ih =>
    intro fuel x y length a hf hd
    cases fuel with
    | zero => omega
    | succ fuel =>
      have hdep : self.depth ≠ 0 := hd.resolve_right (by omega)
      have hcast : ((d + 1 : ℕ) : ℤ) - 1 = (d : ℤ) := by push_cast; ring
      rw [drawTreeFuel, if_neg (by push_cast; omega), if_neg hdep, hcast,
        ih fuel _ _ _ _ (by omega) (Or.inl hdep),
        ih fuel _ _ _ _ (by omega) (Or.inl hdep), drawTreeRec]
      congr 2

theorem drawTreeFuel_no_zeroDiv (E : Env) (self : FractalTree)
    (hd : self.depth ≠ 0) :
    ∀ (fuel : ℕ) (x y length a : ℚ) (cd : ℤ),
    isZeroDiv (drawTreeFuel E self fuel x y length a cd) = false := by
  intro fuel
  induction fuel with
  | zero => intro x y length a cd; rfl
  | succ fuel ih =>
    intro x y length a cd
    rw [drawTreeFuel]
    by_cases h0 : cd = 0
    · rw [if_pos h0]; rfl
    · rw [if_neg h0, if_neg hd]
      have hL := ih (x + length * E.cos a) (y + length * E.sin a)
        (length * self.factor) (a + self.angle) (cd - 1)
      have hR := ih (x + length * E.cos a) (y + length * E.sin a)
        (length * self.factor) (a - self.angle) (cd - 1)
      cases hLe : drawTreeFuel E self fuel (x + length * E.cos a)
          (y + length * E.sin a) (length * self.factor) (a + self.angle)
          (cd - 1) with
      | error e => rw [hLe] at hL; cases e <;> simp_all [isZeroDiv]
      | ok l =>
        cases hRe : drawTreeFuel E self fuel (x + length * E.cos a)
            (y + length * E.sin a) (length * self.factor) (a - self.angle)
            (cd - 1) with
        | error e => rw [hRe] at hR; cases e <;> simp_all [isZeroDiv]
        | ok r => simp [hLe, hRe, isZeroDiv]

/-- Claim C1: for every depth `d ≥ 0` (any environment, tree parameters
and starting pose), `draw_tree` emits exactly `2 ^ d - 1` segments; a call
with depth `0` emits no segments; the default call (depth `None`) emits
`2 ^ self.depth - 1` segments. -/
theorem C1_segment_count :
    ∀ (E : Env) (self : FractalTree) (x y length : ℚ) (angle : Option ℚ)
      (d : ℕ),
    (self.draw_tree E x y length angle (some d)).length = 2 ^ d - 1 ∧
    self.draw_tree E x y length angle (some 0) = [] ∧
    (self.draw_tree E x y length angle none).length = 2 ^ self.depth - 1 := by
  intro E self x y length angle d
  refine ⟨?_, rfl, ?_⟩
  · exact drawTreeRec_length E self d x y length _
  · exact drawTreeRec_length E self self.depth x y length _

/-- Claim C3: the emitted sequence is the exact pre-order, left-first
flattening of the call tree (current branch's segment first, then the
entire `heading + angle` subtree, then the entire `heading - angle`
subtree); for positive depth the output decomposes accordingly. -/
theorem C3_preorder_emission :
    ∀ (E : Env) (self : FractalTree) (x y length a : ℚ) (d : ℕ),
    drawTreeRec E self x y length a d =
      preorder (buildTree E self x y length a d) ∧
    drawTreeRec E self x y length a (d + 1) =
      ⟨x, y, x + length * E.cos a, y + length * E.sin a,
        E.getCmap self.cmap_tree (((d + 1 : ℕ) : ℚ) / (self.depth : ℚ)),
        1 / 2 + ((d + 1 : ℕ) : ℚ) * (3 / 10), d + 1, a, length⟩ ::
      (drawTreeRec E self (x + length * E.cos a) (y + length * E.sin a)
          (length * self.factor) (a + self.angle) d ++
        drawTreeRec E self (x + length * E.cos a) (y + length * E.sin a)
          (length * self.factor) (a - self.angle) d) :=
  fun E self x y length a d =>
    ⟨drawTreeRec_eq_preorder E self d x y length a, rfl⟩

/-- Claim C4: endpoint continuity.  In the call tree of `draw_tree`, the
root segment starts at the configured root point `(x, y)`, and every child
subtree's segment starts at the end point `(x2, y2)` of the parent segment
that spawned it; the emitted list is exactly this tree's segments. -/
theorem C4_endpoint_continuity :
    ∀ (E : Env) (self : FractalTree) (x y length a : ℚ) (d : ℕ),
    rootAt (buildTree E self x y length a d) x y ∧
    chained (buildTree E self x y length a d) ∧
    drawTreeRec E self x y length a d =
      preorder (buildTree E self x y length a d) :=
  fun E self x y length a d =>
    ⟨buildTree_rootAt E self d x y length a, buildTree_chained E self d x y length a,
      drawTreeRec_eq_preorder E self d x y length a⟩

/-- Claim C5: every emitted segment has
`linewidth = 0.5 + current_depth * 0.3` and
`color = colormap(current_depth / self.depth)` with `self.depth` the
stored maximum depth, constant across the traversal; consequently two
segments of the same tree at the same depth have the same colour. -/
theorem C5_width_color :
    ∀ (E : Env) (self : FractalTree) (x y length a : ℚ) (d : ℕ),
    (∀ s ∈ drawTreeRec E self x y length a d,
      s.linewidth = 1 / 2 + (s.depth : ℚ) * (3 / 10) ∧
      s.color = E.getCmap self.cmap_tree ((s.depth : ℚ) / (self.depth : ℚ))) ∧
    (∀ s1 ∈ drawTreeRec E self x y length a d,
      ∀ s2 ∈ drawTreeRec E self x y length a d,
      s1.depth = s2.depth → s1.color = s2.color) := by
  intro E self x y length a d
  constructor
  · intro s hs
    obtain ⟨h1, h2, _⟩ := mem_drawTreeRec_props E self d x y length a s hs
    exact ⟨h1, h2⟩
  · intro s1 h1 s2 h2 hdep
    rw [(mem_drawTreeRec_props E self d x y length a s1 h1).2.1,
      (mem_drawTreeRec_props E self d x y length a s2 h2).2.1, hdep]

/-- Evaluation witness for C5 at `env0`, `tree1`: the single emitted
segment has the claimed width and colour. -/
theorem C5_witness :
    seg1.linewidth = 1 / 2 + (seg1.depth : ℚ) * (3 / 10) ∧
    seg1.color = env0.getCmap tree1.cmap_tree
      ((seg1.depth : ℚ) / (tree1.depth : ℚ)) :=
  (C5_width_color env0 tree1 0 0 1 90 1).1 seg1
    (by simp [drawTreeRec, tree1, env0, seg1]; norm_num)

/-- Claim C8: the geometry is independent of the `seed` parameter: two
constructions differing only in `seed` yield the same object state
(`__init__` never stores `seed`) and hence identical segment sequences
from every call of `draw_tree`. -/
theorem C8_seed_independence :
    ∀ (E : Env) (depth : ℕ) (angle factor : ℚ) (seed1 seed2 : ℤ)
      (cmap : String) (x y length : ℚ) (a : Option ℚ) (d : Option ℕ),
    FractalTree.init E depth angle factor seed1 cmap =
      FractalTree.init E depth angle factor seed2 cmap ∧
    (FractalTree.init E depth angle factor seed1 cmap).draw_tree E x y length a d =
      (FractalTree.init E depth angle factor seed2 cmap).draw_tree E x y length a d :=
  fun _ _ _ _ _ _ _ _ _ _ _ _ => ⟨rfl, rfl⟩

/-- Claim C9: `draw_tree` is deterministic and side-effect free.  In the
state-passing translation, a call leaves the object state unchanged, a
second call with identical inputs returns the identical segment sequence,
and the produced sequence is the pure function `drawTreeRec` of the
parameters and starting pose. -/
theorem C9_pure_deterministic :
    ∀ (E : Env) (self : FractalTree) (x y length a : ℚ) (d : ℕ),
    (drawTreeState E self x y length a d).2 = self ∧
    (drawTreeState E (drawTreeState E self x y length a d).2 x y length a d).1 =
      (drawTreeState E self x y length a d).1 ∧
    (drawTreeState E self x y length a d).1 = drawTreeRec E self x y length a d := by
  intro E self x y length a d
  simp [drawTreeState_eq]

/-- Claim C6: with `depth=1, angle=30, factor=0.7`, default pose
(`start=(0,0)`, `length=1`, heading `π/2`), and the trigonometric facts
`cos(π/2)=0`, `sin(π/2)=1`, `π/2 ± deg2rad(30) = deg2rad(120), deg2rad(60)`,
the generator emits exactly one segment from `(0,0)` to `(0,1)`; with
`depth=2` it emits exactly three segments, the first with those same
endpoints, the next two both starting at `(0,1)` with headings
`deg2rad(120)` and `deg2rad(60)` and length `0.7`. -/
theorem C6_scenarios :
    ∀ (E : Env) (seed : ℤ) (cmap : String),
    E.cos E.halfPi = 0 → E.sin E.halfPi = 1 →
    E.halfPi + E.d2r 30 = E.d2r 120 → E.halfPi - E.d2r 30 = E.d2r 60 →
    (∃ s1 : Segment,
      (FractalTree.init E 1 30 (7 / 10) seed cmap).draw_tree E 0 0 1 none none
        = [s1] ∧
      s1.x = 0 ∧ s1.y = 0 ∧ s1.x2 = 0 ∧ s1.y2 = 1) ∧
    (∃ s1 s2 s3 : Segment,
      (FractalTree.init E 2 30 (7 / 10) seed cmap).draw_tree E 0 0 1 none none
        = [s1, s2, s3] ∧
      s1.x = 0 ∧ s1.y = 0 ∧ s1.x2 = 0 ∧ s1.y2 = 1 ∧
      s2.x = 0 ∧ s2.y = 1 ∧ s2.heading = E.d2r 120 ∧ s2.len = 7 / 10 ∧
      s3.x = 0 ∧ s3.y = 1 ∧ s3.heading = E.d2r 60 ∧ s3.len = 7 / 10) := by
  intro E seed cmap hcos hsin h120 h60
  constructor
  · refine ⟨_, rfl, ?_, ?_, ?_, ?_⟩ <;>
      simp [FractalTree.init, hcos, hsin]
  · refine ⟨_, _, _, rfl, ?_, ?_, ?_, ?_, ?_, ?_, ?_, ?_, ?_, ?_, ?_, ?_⟩ <;>
      simp [FractalTree.init, hcos, hsin, h120, h60]

/-- Evaluation witness for C6: the scenarios instantiated at the concrete
environment `env0` (where `cos` is constantly `0`, `sin` constantly `1`,
degrees are kept as-is and `halfPi = 90`). -/
theorem C6_witness :
    (∃ s1 : Segment,
      (FractalTree.init env0 1 30 (7 / 10) 0 "Greens").draw_tree env0 0 0 1
          none none = [s1] ∧
      s1.x = 0 ∧ s1.y = 0 ∧ s1.x2 = 0 ∧ s1.y2 = 1) ∧
    (∃ s1 s2 s3 : Segment,
      (FractalTree.init env0 2 30 (7 / 10) 0 "Greens").draw_tree env0 0 0 1
          none none = [s1, s2, s3] ∧
      s1.x = 0 ∧ s1.y = 0 ∧ s1.x2 = 0 ∧ s1.y2 = 1 ∧
      s2.x = 0 ∧ s2.y = 1 ∧ s2.heading = env0.d2r 120 ∧ s2.len = 7 / 10 ∧
      s3.x = 0 ∧ s3.y = 1 ∧ s3.heading = env0.d2r 60 ∧ s3.len = 7 / 10) :=
  C6_scenarios env0 0 "Greens" rfl rfl (by norm_num [env0]) (by norm_num [env0])

/-- Claim C7: in a depth-5 tree with shrink factor `0.7`, drawn from the
default pose with starting length `1`, every leaf-level segment
(`current_depth = 1`) was emitted with length `0.7 ^ 4`, and the root
segment (`current_depth = 5`) with the un-shrunk length `1`. -/
theorem C7_leaf_length :
    ∀ (E : Env) (self : FractalTree) (x y : ℚ) (s : Segment),
    self.factor = 7 / 10 → self.depth = 5 →
    s ∈ self.draw_tree E x y 1 none none →
    (s.depth = 1 → s.len = (7 / 10) ^ 4) ∧ (s.depth = 5 → s.len = 1) := by
  intro E self x y s hf hdep hs
  obtain ⟨-, -, hlen, -, -⟩ :=
    mem_drawTreeRec_props E self self.depth x y 1 (Option.getD none E.halfPi) s hs
  constructor
  · intro h1; rw [hlen, h1, hf, hdep]; norm_num
  · intro h5; rw [hlen, h5, hdep]; norm_num

/-- Evaluation witness for C7: a concrete leaf segment of the concrete
depth-5 tree `tree5` carries length `0.7 ^ 4 = 2401 / 10000`. -/
theorem C7_witness :
    (leafSeg.depth = 1 → leafSeg.len = (7 / 10) ^ 4) ∧
    (leafSeg.depth = 5 → leafSeg.len = 1) :=
  C7_leaf_length env1 tree5 0 0 leafSeg rfl rfl
    (by simp [FractalTree.draw_tree, drawTreeRec, tree5, env1, leafSeg]; norm_num)

/-- Claim C2 counterexample: a negative integer depth does not yield zero
segments with a normal return.  On the default tree (`depth=8`), a call
with depth `-1` exhausts every recursion allowance (Python's
`RecursionError`) instead of returning. -/
theorem C2_counterexample : negDepthDiverges := by
  intro fuel
  have h : tree8.depth ≠ 0 := by decide
  exact drawTreeFuel_neg env1 tree8 h fuel 0 0 1 90 (-1) (by norm_num)

/-- Claim C2 amended: a non-negative depth argument `d` returns normally —
no failure, validation or retry — whenever the interpreter allows `d`
nested calls and the division `current_depth / self.depth` is defined
(`self.depth ≠ 0`, or `d = 0` so the division is never reached); depth `0`
yields zero segments.  Negative depths never return (see the
counterexample). -/
theorem C2_amended_nonneg_returns :
    ∀ (E : Env) (self : FractalTree) (fuel : ℕ) (x y length : ℚ)
      (a : Option ℚ) (d : ℕ), d < fuel → (self.depth ≠ 0 ∨ d = 0) →
    self.draw_tree_fuel E fuel x y length a (some (d : ℤ)) =
      .ok (drawTreeRec E self x y length (a.getD E.halfPi) d) ∧
    self.draw_tree_fuel E fuel x y length a (some 0) = .ok [] := by
  intro E self fuel x y length a d hf hd
  constructor
  · simpa [FractalTree.draw_tree_fuel] using
      drawTreeFuel_agree E self d fuel x y length (a.getD E.halfPi) hf hd
  · have h0 := drawTreeFuel_agree E self 0 fuel x y length (a.getD E.halfPi)
      (by omega) (Or.inr rfl)
    simpa [FractalTree.draw_tree_fuel, drawTreeRec] using h0

/-- Evaluation witness for the amended C2 at `env0`, `tree1`, depth `1`,
allowance `3`. -/
theorem C2_amended_witness :
    (1 : ℕ) < 3 ∧ (tree1.depth ≠ 0 ∨ (1 : ℕ) = 0) ∧
    (tree1.draw_tree_fuel env0 3 0 0 1 none (some ((1 : ℕ) : ℤ)) =
        .ok (drawTreeRec env0 tree1 0 0 1 (Option.getD none env0.halfPi) 1) ∧
      tree1.draw_tree_fuel env0 3 0 0 1 none (some 0) = .ok []) :=
  ⟨by norm_num, Or.inl (by decide),
    C2_amended_nonneg_returns env0 tree1 3 0 0 1 none 1 (by norm_num)
      (Or.inl (by decide))⟩

/-- Claim C10: division-by-zero safety of `t = current_depth / self.depth`
at the public interface: with the top-level depth defaulted to
`self.depth`, the model never raises `ZeroDivisionError` — when
`self.depth = 0` the `current_depth == 0` early return fires before the
division, and otherwise the divisor is nonzero throughout the traversal. -/
theorem C10_no_zero_division :
    ∀ (E : Env) (self : FractalTree) (fuel : ℕ) (x y length : ℚ)
      (a : Option ℚ),
    isZeroDiv (self.draw_tree_fuel E fuel x y length a none) = false := by
  intro E self fuel x y length a
  by_cases hd : self.depth = 0
  · cases fuel with
    | zero => rfl
    | succ fuel =>
      show isZeroDiv
        (drawTreeFuel E self (fuel + 1) x y length (a.getD E.halfPi)
          ((self.depth : ℕ) : ℤ)) = false
      rw [drawTreeFuel, if_pos (by simp [hd])]
      rfl
  · exact drawTreeFuel_no_zeroDiv E self hd fuel x y length (a.getD E.halfPi)
      ((self.depth : ℕ) : ℤ)
